import Mathlib

/-!
Shallow embedding of the WebSSH virtual filesystem and shell interpreter
(`src/services/mockSys.ts`, node type from `src/types.ts`).

The TypeScript class `MockSystem` holds a mutable tree (`root`) and a
cursor (`currentPath`); here the state is an explicit `MockSystem`
structure and each mutating method returns the new state.  The JS deep
copy `cloneFS` (JSON round trip) is the identity on this pure data and
is therefore not modelled.
-/

/-- `'file' | 'directory'` from `types.ts`. -/
inductive NodeType : Type where
  | file : NodeType
  | directory : NodeType
deriving DecidableEq, Repr

/-- `FileSystemNode` from `types.ts`: `name`, `type`, optional `content`
(files), optional `children` (directories), plus the cosmetic
`permissions`, `owner`, `size`, `date` strings.  The TS field `type` is
called `ntype` here. -/
inductive FileSystemNode : Type where
  | mk (name : String) (ntype : NodeType) (content : Option String)
       (children : Option (List FileSystemNode))
       (permissions : String) (owner : String) (size : String) (date : String) :
       FileSystemNode

def FileSystemNode.name : FileSystemNode → String
  | .mk n _ _ _ _ _ _ _ => n

def FileSystemNode.ntype : FileSystemNode → NodeType
  | .mk _ t _ _ _ _ _ _ => t

def FileSystemNode.content : FileSystemNode → Option String
  | .mk _ _ c _ _ _ _ _ => c

def FileSystemNode.children : FileSystemNode → Option (List FileSystemNode)
  | .mk _ _ _ cs _ _ _ _ => cs

/-- Functional counterpart of the JS assignment `node.children = cs`. -/
def FileSystemNode.setChildren : FileSystemNode → Option (List FileSystemNode) → FileSystemNode
  | .mk n t c _ p o s d, cs => .mk n t c cs p o s d

/-- The seed tree `initialFileSystem` from `mockSys.ts`, transcribed
field by field (literal braces in `config.json`'s content are written
with hex escapes). -/
def initialFileSystem : FileSystemNode :=
  .mk "root" .directory none (some [
    .mk "home" .directory none (some [
      .mk "user" .directory none (some [
        .mk "documents" .directory none (some [
          .mk "project_notes.txt" .file
            (some "These are the notes for the secret project.\nStatus: Ongoing\nPriority: High")
            none "-rw-r--r--" "user" "1.2k" "Oct 26 14:32",
          .mk "todo.md" .file
            (some "- [ ] Refactor backend\n- [ ] Fix CSS bugs\n- [x] Deploy to production")
            none "-rw-r--r--" "user" "340" "Oct 27 09:15"
        ]) "drwxr-xr-x" "user" "4096" "Oct 26 14:30",
        .mk "config.json" .file
          (some "\x7b\n  \"theme\": \"dark\",\n  \"notifications\": true,\n  \"version\": \"1.0.4\"\n\x7d")
          none "-rw-r--r--" "user" "512" "Oct 25 11:20"
      ]) "drwxr-xr-x" "user" "4096" "Oct 25 10:01"
    ]) "drwxr-xr-x" "root" "4096" "Oct 25 10:00",
    .mk "var" .directory none (some [
      .mk "log" .directory none (some [
        .mk "syslog" .file
          (some "Oct 27 15:45:01 server CRON[1234]: (root) CMD (cd / && run-parts --report /etc/cron.hourly)")
          none "-rw-r-----" "syslog" "24M" "Oct 27 15:45"
      ]) "drwxr-xr-x" "root" "4096" "Oct 24 08:00"
    ]) "drwxr-xr-x" "root" "4096" "Oct 24 08:00",
    .mk "etc" .directory none (some [
      .mk "passwd" .file
        (some "root:x:0:0:root:/root:/bin/bash\nuser:x:1000:1000:user,,,:/home/user:/bin/bash")
        none "-rw-r--r--" "root" "1024" "Oct 20 12:00"
    ]) "drwxr-xr-x" "root" "4096" "Oct 20 12:00"
  ]) "drwxr-xr-x" "root" "4096" "Oct 25 10:00"

/-! JS string primitives used by `mockSys.ts`, modelled structurally on
the character list so that they compute inside the kernel. -/

/-- `Array.prototype.join(sep)`: empty array gives `""`, otherwise the
elements interleaved with `sep`. -/
def jsJoin (sep : String) : List String → String
  | [] => ""
  | [s] => s
  | s :: rest => s ++ sep ++ jsJoin sep rest

/-- Character-list splitter behind `String.prototype.split(sep)` for a
single-character separator: chunks between separator occurrences,
keeping empty chunks (so `"" ↦ [""]`, `"/" ↦ ["", ""]`). -/
def splitChars (p : Char → Bool) : List Char → List (List Char)
  | [] => [[]]
  | c :: rest =>
    let r := splitChars p rest
    if p c then [] :: r
    else
      match r with
      | [] => [[c]]
      | h :: t => (c :: h) :: t

/-- `String.prototype.split` on a character class (the source splits on
`'/'` and on the whitespace run regex — see `tokenize`). -/
def jsSplit (s : String) (p : Char → Bool) : List String :=
  (splitChars p s.data).map (fun l => String.mk l)

/-- `String.prototype.trim()`: strip leading and trailing whitespace. -/
def jsTrim (s : String) : String :=
  String.mk (((s.data.dropWhile Char.isWhitespace).reverse.dropWhile Char.isWhitespace).reverse)

/-- `String.prototype.startsWith(c)` for the single-character prefix
used by the source (`'/'`). -/
def jsStartsWith (s : String) (c : Char) : Bool :=
  match s.data with
  | [] => false
  | c0 :: _ => c0 == c

/-- The `MockSystem` instance state: the owned tree and the cwd cursor. -/
structure MockSystem : Type where
  root : FileSystemNode
  currentPath : List String

/-- The constructor: clone the seed, start in `/home/user`. -/
def initialSystem : MockSystem :=
  { root := initialFileSystem, currentPath := ["home", "user"] }

/-- `getCurrentPathString`. -/
def getCurrentPathString (sys : MockSystem) : String :=
  "/" ++ jsJoin "/" sys.currentPath

/-- `MockSystem.findNode`: walk from `current` matching each segment
against the children by exact name; `null` when there are no children or
no matching child. -/
def findNode (current : FileSystemNode) : List String → Option FileSystemNode
  | [] => some current
  | seg :: rest =>
    match current.children with
    | none => none
    | some cs =>
      match cs.find? (fun c => c.name == seg) with
      | none => none
      | some next => findNode next rest

/-- The record returned by `resolvePath`. -/
structure ResolveResult : Type where
  node : Option FileSystemNode
  parts : List String

/-- `MockSystem.resolvePath`: absolute iff the string starts with `/`;
split on `/`, dropping empty and `.` segments; `..` pops the working
list when non-empty; anything else is pushed; finally look the computed
absolute segment list up from the root. -/
def resolvePath (root : FileSystemNode) (currentPath : List String) (pathStr : String) :
    ResolveResult :=
  let isAbsolute := jsStartsWith pathStr '/'
  let parts := (jsSplit pathStr (· == '/')).filter (fun p => p.length > 0 && p != ".")
  let targetPath : List String := if isAbsolute then [] else currentPath
  let targetPath := parts.foldl
    (fun tp part =>
      if part == ".." then (if tp.length > 0 then tp.dropLast else tp)
      else tp ++ [part])
    targetPath
  { node := findNode root targetPath, parts := targetPath }

/-- `cmdStr.trim().split(/\s+/)`: on a trimmed non-empty string the
regex split yields exactly the maximal non-empty whitespace-free runs;
on the empty string JS yields `[""]` whose head is falsy, which this
model renders as the empty token list. -/
def tokenize (cmdStr : String) : List String :=
  (jsSplit (jsTrim cmdStr) Char.isWhitespace).filter (fun s => s != "")

/-- JS renders `undefined` inside a template literal as `"undefined"`
(the `ls` error path interpolates `args[1]` even when absent). -/
def jsArg : Option String → String
  | some s => s
  | none => "undefined"

/-- `MockSystem.executeCommand`, returning the output string and the
state after the call. -/
def executeCommand (sys : MockSystem) (cmdStr : String) : String × MockSystem :=
  let args := tokenize cmdStr
  match args.head? with
  | none => ("", sys)
  | some cmd =>
    if cmd == "ls" then
      let target := match args.get? 1 with
        | some p => (resolvePath sys.root sys.currentPath p).node
        | none => findNode sys.root sys.currentPath
      match target with
      | none =>
        ("ls: cannot access \x27" ++ jsArg (args.get? 1) ++ "\x27: No such file or directory", sys)
      | some t =>
        if t.ntype = NodeType.file then (t.name, sys)
        else
          (match t.children with
           | some cs => jsJoin "  " (cs.map FileSystemNode.name)
           | none => "", sys)
    else if cmd == "cd" then
      match args.get? 1 with
      | none => ("", { sys with currentPath := ["home", "user"] })
      | some p =>
        let r := resolvePath sys.root sys.currentPath p
        match r.node with
        | none => ("cd: " ++ p ++ ": No such file or directory", sys)
        | some n =>
          if n.ntype = NodeType.directory then ("", { sys with currentPath := r.parts })
          else ("cd: " ++ p ++ ": No such file or directory", sys)
    else if cmd == "pwd" then
      (getCurrentPathString sys, sys)
    else if cmd == "cat" then
      match args.get? 1 with
      | none => ("cat: missing operand", sys)
      | some p =>
        match (resolvePath sys.root sys.currentPath p).node with
        | none => ("cat: " ++ p ++ ": No such file or directory", sys)
        | some n =>
          if n.ntype = NodeType.directory then ("cat: " ++ p ++ ": Is a directory", sys)
          else (n.content.getD "", sys)
    else if cmd == "echo" then
      (jsJoin " " (args.drop 1), sys)
    else if cmd == "whoami" then
      ("user", sys)
    else if cmd == "help" then
      ("Available commands: ls, cd, pwd, cat, echo, whoami, help.\nThis is a simulated environment.", sys)
    else
      (cmd ++ ": command not found", sys)

/-- `MockSystem.listFiles`: `/` maps to the empty segment list,
otherwise split on `/` keeping truthy (non-empty) segments; return the
children of the node when it is a directory with a children array. -/
def listFiles (sys : MockSystem) (pathStr : String) : List FileSystemNode :=
  let parts := if pathStr == "/" then [] else (jsSplit pathStr (· == '/')).filter (fun s => s != "")
  match findNode sys.root parts with
  | some n =>
    if n.ntype = NodeType.directory then
      match n.children with
      | some cs => cs
      | none => []
    else []
  | none => []

/-- The child-array mutation inside `addFile`: overwrite the first
same-named child in place, else push at the end. -/
def insertChild (cs : List FileSystemNode) (fileNode : FileSystemNode) : List FileSystemNode :=
  match cs.findIdx? (fun c => c.name == fileNode.name) with
  | some i => cs.set i fileNode
  | none => cs ++ [fileNode]

/-- Replace the first child named `seg` by its image under `g`,
leaving every other child untouched (the functional rendering of
mutating the object `children.find` returned). -/
def updateFirstNamed (seg : String) (g : FileSystemNode → FileSystemNode) :
    List FileSystemNode → List FileSystemNode
  | [] => []
  | c :: rest => if c.name == seg then g c :: rest else c :: updateFirstNamed seg g rest

/-- Apply `f` to the node reached from `node` by the `findNode` walk
along `path`, rebuilding the spine; when the walk cannot continue the
tree is returned unchanged (that case never arises when `findNode`
succeeded on `path`). -/
def updateAtPath (f : FileSystemNode → FileSystemNode) :
    List String → FileSystemNode → FileSystemNode
  | [], node => f node
  | seg :: rest, node =>
    match node.children with
    | none => node
    | some cs => node.setChildren (some (updateFirstNamed seg (fun c => updateAtPath f rest c) cs))

/-- `MockSystem.addFile`: resolve `dirPath`; on a directory, ensure a
children array and overwrite-or-push `fileNode` (the in-place mutation
of the resolved node becomes `updateAtPath` along the resolved
segments), returning `true`; otherwise `false` with no mutation. -/
def addFile (sys : MockSystem) (dirPath : String) (fileNode : FileSystemNode) :
    Bool × MockSystem :=
  let r := resolvePath sys.root sys.currentPath dirPath
  match r.node with
  | some n =>
    if n.ntype = NodeType.directory then
      (true,
       { sys with
         root := updateAtPath
           (fun d => d.setChildren (some (insertChild (d.children.getD []) fileNode)))
           r.parts sys.root })
    else (false, sys)
  | none => (false, sys)

/-! Specification-side definitions, transcribed from the spec/claim
wording for refinement comparison against the source embedding. -/

/-- Transcribed from the spec wording of §4.1 (claim side): resolution
starts from the root when the string begins with `/` and from the
current directory otherwise; the string is split on `/`, discarding
empty segments and segments equal to `.`; `..` pops the last segment of
the working list (popping at root is a no-op, the list never goes
negative); every other segment is appended. -/
def specResolveSegments (pathStr : String) (currentPath : List String) : List String :=
  let start : List String := if jsStartsWith pathStr '/' then [] else currentPath
  let segs := (jsSplit pathStr (· == '/')).filter (fun p => p != "" && p != ".")
  segs.foldl (fun acc s => if s == ".." then acc.dropLast else acc ++ [s]) start

/-- Transcribed from the spec wording of the lookup walk (claim side):
walk the tree from the given node, matching each segment in turn
against the current node's children by exact name; if at any step the
current node has no children or no matching child, the result is
absent. -/
def specWalk (node : FileSystemNode) : List String → Option FileSystemNode
  | [] => some node
  | s :: rest =>
    match node.children with
    | none => none
    | some cs =>
      match cs.find? (fun c => c.name == s) with
      | none => none
      | some c => specWalk c rest

/-- Transcribed from the claim wording for `listFiles` (spec §6): split
the string on `/` dropping empty segments, match each segment literally
from the root (`.` and `..` not special), return the children sequence
of a directory node and the empty sequence when the path is absent or
not a directory. -/
def listFilesSpec (root : FileSystemNode) (pathStr : String) : List FileSystemNode :=
  let parts := (jsSplit pathStr (· == '/')).filter (fun s => s != "")
  match specWalk root parts with
  | some n => if n.ntype = NodeType.directory then n.children.getD [] else []
  | none => []

/-! Selected nodes of the seed tree, written out literally for use in
concrete instantiations, together with fresh file nodes that exercise
`addFile`. -/

/-- The `/etc` directory node of the seed tree. -/
def etcNode : FileSystemNode :=
  .mk "etc" .directory none (some [
    .mk "passwd" .file
      (some "root:x:0:0:root:/root:/bin/bash\nuser:x:1000:1000:user,,,:/home/user:/bin/bash")
      none "-rw-r--r--" "root" "1024" "Oct 20 12:00"
  ]) "drwxr-xr-x" "root" "4096" "Oct 20 12:00"

/-- The `/etc/passwd` file node of the seed tree. -/
def passwdNode : FileSystemNode :=
  .mk "passwd" .file
    (some "root:x:0:0:root:/root:/bin/bash\nuser:x:1000:1000:user,,,:/home/user:/bin/bash")
    none "-rw-r--r--" "root" "1024" "Oct 20 12:00"

/-- The `/home/user/documents` directory node of the seed tree. -/
def documentsNode : FileSystemNode :=
  .mk "documents" .directory none (some [
    .mk "project_notes.txt" .file
      (some "These are the notes for the secret project.\nStatus: Ongoing\nPriority: High")
      none "-rw-r--r--" "user" "1.2k" "Oct 26 14:32",
    .mk "todo.md" .file
      (some "- [ ] Refactor backend\n- [ ] Fix CSS bugs\n- [x] Deploy to production")
      none "-rw-r--r--" "user" "340" "Oct 27 09:15"
  ]) "drwxr-xr-x" "user" "4096" "Oct 26 14:30"

/-- The `/home/user` directory node of the seed tree. -/
def userNode : FileSystemNode :=
  .mk "user" .directory none (some [
    documentsNode,
    .mk "config.json" .file
      (some "\x7b\n  \"theme\": \"dark\",\n  \"notifications\": true,\n  \"version\": \"1.0.4\"\n\x7d")
      none "-rw-r--r--" "user" "512" "Oct 25 11:20"
  ]) "drwxr-xr-x" "user" "4096" "Oct 25 10:01"

/-- A fresh file node whose name collides with nothing in `/etc`. -/
def wNew : FileSystemNode :=
  .mk "new.txt" .file (some "fresh") none "-rw-r--r--" "user" "5" "Oct 28 09:00"

/-- A fresh file node whose name collides with `/etc/passwd`. -/
def wPasswd : FileSystemNode :=
  .mk "passwd" .file (some "overwritten") none "-rw-r--r--" "user" "11" "Oct 28 09:00"

/-- A fresh FILE node named like the `/home/user/documents` DIRECTORY. -/
def docFile : FileSystemNode :=
  .mk "documents" .file (some "overwritten") none "-rw-r--r--" "user" "11" "Oct 28 09:00"

/-! Helper lemmas. -/

theorem string_length_pos_beq (p : String) : (decide (0 < String.length p)) = (p != "") := by
  by_cases hp : p = ""
  · subst hp; rfl
  · have h2 : 0 < p.length := by
      cases p with
      | mk data =>
        cases data with
        | nil => exact absurd rfl hp
        | cons c cs => simp [String.length]
    simp [h2, hp]

theorem findNode_eq_specWalk (path : List String) :
    ∀ node, findNode node path = specWalk node path := by
  induction path with
  | nil => intro node; rfl
  | cons s rest ih =>
    intro node
    cases hch : node.children with
    | none => simp only [findNode, specWalk, hch]
    | some cs =>
      simp only [findNode, specWalk, hch]
      cases hf : List.find? (fun c => c.name == s) cs with
      | none => simp only [hf]
      | some c => simp only [hf]; exact ih c

theorem setChildren_name (n : FileSystemNode) (cs : Option (List FileSystemNode)) :
    (n.setChildren cs).name = n.name := by cases n; rfl

theorem setChildren_children (n : FileSystemNode) (cs : Option (List FileSystemNode)) :
    (n.setChildren cs).children = cs := by cases n; rfl

theorem updateAtPath_name (f : FileSystemNode → FileSystemNode)
    (hf : ∀ n, (f n).name = n.name) (path : List String) (node : FileSystemNode) :
    (updateAtPath f path node).name = node.name := by
  cases path with
  | nil => exact hf node
  | cons s rest =>
    cases hch : node.children with
    | none => simp [updateAtPath, hch]
    | some cs => simp [updateAtPath, hch, setChildren_name]

theorem find?_updateFirstNamed (s : String) (g : FileSystemNode → FileSystemNode)
    (hg : ∀ n, (g n).name = n.name) (cs : List FileSystemNode) (next : FileSystemNode)
    (h : cs.find? (fun c => c.name == s) = some next) :
    (updateFirstNamed s g cs).find? (fun c => c.name == s) = some (g next) := by
  induction cs with
  | nil => simp at h
  | cons c tl ih =>
    cases hc : c.name == s with
    | true =>
      simp only [List.find?, hc] at h
      injection h with h; subst h
      have hgc : ((g c).name == s) = true := by rw [hg]; exact hc
      simp only [updateFirstNamed, hc, if_true, List.find?, hgc]
    | false =>
      simp only [List.find?, hc] at h
      simp only [updateFirstNamed, hc, if_false, List.find?]
      exact ih h

/-- Updating along the same `findNode` walk that located a node leaves
that node's slot reachable and holding the updated node, provided the
update preserves names along the way. -/
theorem findNode_updateAtPath (f : FileSystemNode → FileSystemNode)
    (hf : ∀ n, (f n).name = n.name) :
    ∀ (path : List String) (node d : FileSystemNode),
      findNode node path = some d →
      findNode (updateAtPath f path node) path = some (f d) := by
  intro path
  induction path with
  | nil =>
    intro node d h
    simp only [findNode] at h
    injection h with h; subst h
    rfl
  | cons s rest ih =>
    intro node d h
    cases hch : node.children with
    | none => simp [findNode, hch] at h
    | some cs =>
      simp only [findNode, hch] at h
      cases hfind : cs.find? (fun c => c.name == s) with
      | none => rw [hfind] at h; simp at h
      | some next =>
        rw [hfind] at h
        simp only [updateAtPath, hch, findNode, setChildren_children]
        rw [find?_updateFirstNamed s _ (fun n => updateAtPath_name f hf rest n) cs next hfind]
        exact ih next d h

theorem findNode_append_single (s : String) :
    ∀ (path : List String) (node : FileSystemNode),
      findNode node (path ++ [s]) =
        match findNode node path with
        | none => none
        | some n =>
          match n.children with
          | none => none
          | some cs => cs.find? (fun c => c.name == s) := by
  intro path
  induction path with
  | nil =>
    intro node
    cases hch : node.children with
    | none => simp [findNode, hch]
    | some cs =>
      simp only [List.nil_append, findNode, hch]
      cases hfind : cs.find? (fun c => c.name == s) with
      | none => simp only [hfind]
      | some next => simp only [hfind, findNode]
  | cons t rest ih =>
    intro node
    simp only [List.cons_append, findNode]
    cases hch : node.children with
    | none => simp only [hch]
    | some cs =>
      simp only [hch]
      cases hfind : cs.find? (fun c => c.name == t) with
      | none => simp only [hfind]
      | some next => simp only [hfind]; exact ih next

/-- Recursion equation for `insertChild` (the `findIndex`-then-mutate
shape of the source unrolled one child at a time). -/
theorem insertChild_cons (c : FileSystemNode) (tl : List FileSystemNode) (f : FileSystemNode) :
    insertChild (c :: tl) f =
      if c.name == f.name then f :: tl else c :: insertChild tl f := by
  simp only [insertChild, List.findIdx?_cons]
  by_cases h : (c.name == f.name) = true
  · rw [if_pos h, if_pos h]
    rfl
  · rw [if_neg h, if_neg h, List.findIdx?_succ]
    cases hidx : List.findIdx? (fun x => x.name == f.name) tl with
    | none => simp [hidx]
    | some i => simp [hidx]

theorem insertChild_append (cs : List FileSystemNode) (f : FileSystemNode)
    (h : ∀ c ∈ cs, ¬ c.name = f.name) :
    insertChild cs f = cs ++ [f] := by
  induction cs with
  | nil => rfl
  | cons c tl ih =>
    rw [insertChild_cons]
    have hc : ¬ (c.name == f.name) = true := by
      simp only [beq_iff_eq]
      exact h c (List.mem_cons_self c tl)
    rw [if_neg hc, ih (fun x hx => h x (List.mem_cons_of_mem c hx))]
    rfl

theorem insertChild_set (cs : List FileSystemNode) (f : FileSystemNode)
    (h : ∃ c ∈ cs, c.name = f.name) :
    ∃ i c, cs.get? i = some c ∧ c.name = f.name ∧
      insertChild cs f = cs.set i f := by
  induction cs with
  | nil => simp at h
  | cons c tl ih =>
    by_cases hc : (c.name == f.name) = true
    · refine ⟨0, c, List.get?_cons_zero, by simpa using hc, ?_⟩
      rw [insertChild_cons, if_pos hc, List.set_cons_zero]
    · have htl : ∃ x ∈ tl, x.name = f.name := by
        rcases h with ⟨x, hx, hname⟩
        rcases List.mem_cons.mp hx with h1 | h2
        · subst h1; exact absurd (by simpa using hname) hc
        · exact ⟨x, h2, hname⟩
      rcases ih htl with ⟨i, x, hget, hname, heq⟩
      refine ⟨i + 1, x, by rw [List.get?_cons_succ]; exact hget, hname, ?_⟩
      rw [insertChild_cons, if_neg hc, heq, List.set_cons_succ]

/-- After `insertChild`, the first child matching the inserted node's
name is the inserted node itself (whether it replaced or was pushed). -/
theorem find?_insertChild (cs : List FileSystemNode) (f : FileSystemNode) :
    (insertChild cs f).find? (fun x => x.name == f.name) = some f := by
  have hself : (f.name == f.name) = true := by simp
  induction cs with
  | nil => simp only [insertChild, List.findIdx?_nil, List.nil_append, List.find?, hself]
  | cons c tl ih =>
    rw [insertChild_cons]
    cases h : c.name == f.name with
    | true => simp only [if_true, List.find?, hself]
    | false =>
      simp only [if_false, List.find?, h]
      exact ih

/-- C1: `resolvePath` starts from the root exactly when the string
begins with `/`, splits on `/` dropping empty and `.` segments,
processes `..` by popping the working list (a no-op at root, never
negative), appends other segments, and looks the computed absolute
segment list up from the root by exact child-name matching, returning
an absent node but the computed segments when the walk fails. -/
theorem resolvePath_matches_spec (root : FileSystemNode) (cwd : List String) (p : String) :
    resolvePath root cwd p =
      { node := specWalk root (specResolveSegments p cwd),
        parts := specResolveSegments p cwd } := by
  have hfilter :
      (jsSplit p (· == '/')).filter (fun s => decide (0 < s.length) && (s != ".")) =
      (jsSplit p (· == '/')).filter (fun s => (s != "") && (s != ".")) := by
    apply List.filter_congr
    intro x _
    rw [string_length_pos_beq x]
  have hstep :
      (fun (tp : List String) (part : String) =>
        if part == ".." then (if tp.length > 0 then tp.dropLast else tp) else tp ++ [part]) =
      (fun (acc : List String) (s : String) =>
        if s == ".." then acc.dropLast else acc ++ [s]) := by
    funext tp part
    by_cases h : (part == "..") = true
    · simp only [h, if_true]
      cases tp <;> simp
    · simp [h]
  simp only [resolvePath, specResolveSegments]
  rw [hfilter, hstep, findNode_eq_specWalk]

/-- C7: the resolver is a pure function of the tree, the cursor and the
path string (it is side-effect-free by construction in this embedding:
it returns no state), and for an absolute path string that references
an existing node the result does not depend on the cursor at all. -/
theorem resolvePath_absolute_cwd_independent (root : FileSystemNode)
    (cwd₁ cwd₂ : List String) (p : String)
    (habs : jsStartsWith p '/' = true)
    (_hex : (resolvePath root cwd₁ p).node.isSome = true) :
    resolvePath root cwd₁ p = resolvePath root cwd₂ p := by
  simp only [resolvePath, habs, if_true]

/-- Witness for C7 at `p = "/etc"` with cursors `["home","user"]` and
`["var"]` over the seed tree. -/
theorem resolvePath_absolute_cwd_independent_witness :
    jsStartsWith "/etc" '/' = true ∧
    (resolvePath initialFileSystem ["home", "user"] "/etc").node.isSome = true ∧
    resolvePath initialFileSystem ["home", "user"] "/etc" =
      resolvePath initialFileSystem ["var"] "/etc" :=
  ⟨by decide, by decide,
   resolvePath_absolute_cwd_independent initialFileSystem ["home", "user"] ["var"] "/etc"
     (by decide) (by decide)⟩

/-- C9: `listFiles` returns the stored children sequence of the node
reached by splitting on `/` (dropping empty segments) and literal
child-name matching from the root, ignores the cursor entirely, and
returns the empty sequence for an absent or non-directory path;
`"/"` denotes the root. -/
theorem listFiles_matches_spec (root : FileSystemNode) (cp₁ cp₂ : List String) (p : String) :
    listFiles { root := root, currentPath := cp₁ } p = listFilesSpec root p ∧
    listFiles { root := root, currentPath := cp₁ } p =
      listFiles { root := root, currentPath := cp₂ } p := by
  have key : ∀ cp : List String,
      listFiles { root := root, currentPath := cp } p = listFilesSpec root p := by
    intro cp
    simp only [listFiles, listFilesSpec]
    have hparts :
        (if p == "/" then ([] : List String)
         else (jsSplit p (· == '/')).filter (fun s => s != "")) =
        (jsSplit p (· == '/')).filter (fun s => s != "") := by
      by_cases hp : (p == "/") = true
      · have : p = "/" := by simpa using hp
        subst this
        simp only [hp, if_true]
        decide
      · simp [hp]
    rw [hparts, ← findNode_eq_specWalk]
    cases findNode root ((jsSplit p (· == '/')).filter (fun s => s != "")) with
    | none => rfl
    | some n =>
      by_cases hd : n.ntype = NodeType.directory
      · simp only [hd, if_true]
        cases n.children <;> rfl
      · simp only [hd, if_false]
  exact ⟨key cp₁, (key cp₁).trans (key cp₂).symm⟩

/-- C2: for every line whose first token is `cd`: with no argument the
cursor resets to `["home","user"]` with empty output; an argument that
resolves to an absent node or to a file yields
`cd: <path>: No such file or directory` with the state (hence the
cursor) unchanged; an argument resolving to a directory sets the cursor
to the resolved absolute segment list with empty output. -/
theorem cd_semantics (sys : MockSystem) (line : String)
    (h : (tokenize line).head? = some "cd") :
    ((tokenize line).get? 1 = none →
        executeCommand sys line = ("", { sys with currentPath := ["home", "user"] })) ∧
    (∀ p, (tokenize line).get? 1 = some p →
      (((resolvePath sys.root sys.currentPath p).node = none →
          executeCommand sys line = ("cd: " ++ p ++ ": No such file or directory", sys)) ∧
       (∀ n, (resolvePath sys.root sys.currentPath p).node = some n →
          ((n.ntype = NodeType.file →
              executeCommand sys line = ("cd: " ++ p ++ ": No such file or directory", sys)) ∧
           (n.ntype = NodeType.directory →
              executeCommand sys line =
                ("", { sys with
                       currentPath := (resolvePath sys.root sys.currentPath p).parts })))))) := by
  match hl : tokenize line with
  | [] => rw [hl] at h; simp at h
  | c :: rest =>
    rw [hl] at h
    simp only [List.head?] at h
    injection h with hc
    subst hc
    constructor
    · intro h1
      cases rest with
      | nil => simp [executeCommand, hl]
      | cons p rest' => simp at h1
    · intro p hp
      cases rest with
      | nil => simp at hp
      | cons q rest' =>
        simp only [List.get?] at hp
        injection hp with hq
        subst hq
        constructor
        · intro hn
          simp [executeCommand, hl, hn]
        · intro n hn
          constructor
          · intro hf
            have hnd : ¬ (n.ntype = NodeType.directory) := by rw [hf]; decide
            simp [executeCommand, hl, hn, hnd]
          · intro hd
            simp [executeCommand, hl, hn, hd]

/-- Witness for C2 on the seed system: `cd` with no argument, `cd` onto
a missing path, and `cd /etc`. -/
theorem cd_semantics_witness :
    executeCommand initialSystem "cd" =
      ("", { root := initialFileSystem, currentPath := ["home", "user"] }) ∧
    executeCommand initialSystem "cd nosuch" =
      ("cd: nosuch: No such file or directory", initialSystem) ∧
    executeCommand initialSystem "cd /etc" =
      ("", { root := initialFileSystem, currentPath := ["etc"] }) :=
  ⟨(cd_semantics initialSystem "cd" rfl).1 rfl,
   ((cd_semantics initialSystem "cd nosuch" rfl).2 "nosuch" rfl).1 rfl,
   (((cd_semantics initialSystem "cd /etc" rfl).2 "/etc" rfl).2 etcNode rfl).2 rfl⟩

/-- C3: `addFile` returns `false` with the state untouched when the
directory path does not resolve to a directory; on a directory it
returns `true`, keeps the cursor, and the resolved slot now holds the
directory with `insertChild` applied to its children: a same-named
child is replaced in place at its existing position (sibling count
unchanged), a fresh name is appended at the end (sibling count + 1). -/
theorem addFile_semantics (sys : MockSystem) (dirPath : String) (fileNode : FileSystemNode) :
    ((resolvePath sys.root sys.currentPath dirPath).node = none →
       addFile sys dirPath fileNode = (false, sys)) ∧
    (∀ d, (resolvePath sys.root sys.currentPath dirPath).node = some d →
       (d.ntype = NodeType.file → addFile sys dirPath fileNode = (false, sys)) ∧
       (d.ntype = NodeType.directory →
         (addFile sys dirPath fileNode).1 = true ∧
         (addFile sys dirPath fileNode).2.currentPath = sys.currentPath ∧
         findNode (addFile sys dirPath fileNode).2.root
             (resolvePath sys.root sys.currentPath dirPath).parts =
           some (d.setChildren (some (insertChild (d.children.getD []) fileNode))) ∧
         ((∃ c ∈ d.children.getD [], c.name = fileNode.name) →
            ∃ i c, (d.children.getD []).get? i = some c ∧ c.name = fileNode.name ∧
              insertChild (d.children.getD []) fileNode = (d.children.getD []).set i fileNode ∧
              (insertChild (d.children.getD []) fileNode).length =
                (d.children.getD []).length) ∧
         ((∀ c ∈ d.children.getD [], ¬ c.name = fileNode.name) →
            insertChild (d.children.getD []) fileNode = d.children.getD [] ++ [fileNode] ∧
            (insertChild (d.children.getD []) fileNode).length =
              (d.children.getD []).length + 1))) := by
  constructor
  · intro hn
    simp [addFile, hn]
  · intro d hd
    have hwalk : findNode sys.root (resolvePath sys.root sys.currentPath dirPath).parts =
        some d := hd
    constructor
    · intro hf
      have hnd : ¬ (d.ntype = NodeType.directory) := by rw [hf]; decide
      simp [addFile, hd, hnd]
    · intro hdir
      refine ⟨?_, ?_, ?_, ?_, ?_⟩
      · simp [addFile, hd, hdir]
      · simp [addFile, hd, hdir]
      · simp only [addFile, hd, hdir, eq_self_iff_true, if_true]
        exact findNode_updateAtPath _ (fun n => setChildren_name n _) _ _ _ hwalk
      · intro hex
        rcases insertChild_set (d.children.getD []) fileNode hex with ⟨i, c, hget, hname, heq⟩
        exact ⟨i, c, hget, hname, heq, by rw [heq, List.length_set]⟩
      · intro hall
        have happ := insertChild_append (d.children.getD []) fileNode hall
        exact ⟨happ, by rw [happ, List.length_append]; rfl⟩

/-- Witness for C3: a non-resolving target fails without mutation, a
colliding upload into `/etc` succeeds, a fresh name is appended. -/
theorem addFile_semantics_witness :
    addFile initialSystem "/nope" wNew = (false, initialSystem) ∧
    (addFile initialSystem "/etc" wPasswd).1 = true ∧
    insertChild (etcNode.children.getD []) wNew = (etcNode.children.getD []) ++ [wNew] :=
  ⟨(addFile_semantics initialSystem "/nope" wNew).1 rfl,
   (((addFile_semantics initialSystem "/etc" wPasswd).2 etcNode rfl).2 rfl).1,
   ((((addFile_semantics initialSystem "/etc" wNew).2 etcNode rfl).2 rfl).2.2.2.2
     (by decide)).1⟩

/-- C4: for every line whose first token is `ls`: an argument resolving
to an absent node yields `ls: cannot access '<path>': No such file or
directory`; when the target (the argument's node, or the current
directory without an argument) is a file the output is its own name;
when it is a directory the output is the children's names joined with
two spaces in stored order (empty string when there are none). -/
theorem ls_semantics (sys : MockSystem) (line : String)
    (h : (tokenize line).head? = some "ls") :
    (∀ p, (tokenize line).get? 1 = some p →
       (resolvePath sys.root sys.currentPath p).node = none →
       executeCommand sys line =
         ("ls: cannot access \x27" ++ p ++ "\x27: No such file or directory", sys)) ∧
    (∀ t, (match (tokenize line).get? 1 with
           | some p => (resolvePath sys.root sys.currentPath p).node
           | none => findNode sys.root sys.currentPath) = some t →
       (t.ntype = NodeType.file → executeCommand sys line = (t.name, sys)) ∧
       (t.ntype = NodeType.directory →
          executeCommand sys line =
            (jsJoin "  " ((t.children.getD []).map FileSystemNode.name), sys))) := by
  match hl : tokenize line with
  | [] => rw [hl] at h; simp at h
  | c :: rest =>
    rw [hl] at h
    simp only [List.head?] at h
    injection h with hc
    subst hc
    constructor
    · intro p hp hn
      cases rest with
      | nil => simp at hp
      | cons q rest' =>
        simp only [List.get?] at hp
        injection hp with hq
        subst hq
        simp [executeCommand, hl, hn, jsArg]
    · intro t ht
      cases rest with
      | nil =>
        simp only [List.get?] at ht
        constructor
        · intro hf
          simp [executeCommand, hl, ht, hf]
        · intro hd
          have hnf : ¬ (t.ntype = NodeType.file) := by rw [hd]; decide
          simp only [executeCommand, hl]
          simp only [List.get?, ht, hnf, if_false]
          cases hch : t.children with
          | none => simp [hch, jsJoin]
          | some cs => simp [hch]
      | cons q rest' =>
        simp only [List.get?] at ht
        constructor
        · intro hf
          simp [executeCommand, hl, ht, hf]
        · intro hd
          have hnf : ¬ (t.ntype = NodeType.file) := by rw [hd]; decide
          simp only [executeCommand, hl]
          simp only [List.get?, ht, hnf, if_false]
          cases hch : t.children with
          | none => simp [hch, jsJoin]
          | some cs => simp [hch]

/-- Witness for C4: a missing path and the default current-directory
listing on the seed system. -/
theorem ls_semantics_witness :
    executeCommand initialSystem "ls nosuch" =
      ("ls: cannot access \x27nosuch\x27: No such file or directory", initialSystem) ∧
    executeCommand initialSystem "ls" = ("documents  config.json", initialSystem) :=
  ⟨(ls_semantics initialSystem "ls nosuch" rfl).1 "nosuch" rfl rfl,
   ((ls_semantics initialSystem "ls" rfl).2 userNode rfl).2 rfl⟩

/-- C5: for every line whose first token is `cat`: no argument yields
`cat: missing operand`; an absent node yields `cat: <path>: No such
file or directory`; a directory yields `cat: <path>: Is a directory`;
a file yields its content (empty string when it has none); and on the
seed tree `cd /home/user/documents` followed by `cat todo.md` returns
exactly the seeded content of `todo.md`. -/
theorem cat_semantics :
    (∀ (sys : MockSystem) (line : String), (tokenize line).head? = some "cat" →
      ((tokenize line).get? 1 = none → executeCommand sys line = ("cat: missing operand", sys)) ∧
      (∀ p, (tokenize line).get? 1 = some p →
        ((resolvePath sys.root sys.currentPath p).node = none →
           executeCommand sys line = ("cat: " ++ p ++ ": No such file or directory", sys)) ∧
        (∀ n, (resolvePath sys.root sys.currentPath p).node = some n →
           (n.ntype = NodeType.directory →
              executeCommand sys line = ("cat: " ++ p ++ ": Is a directory", sys)) ∧
           (n.ntype = NodeType.file →
              executeCommand sys line = (n.content.getD "", sys))))) ∧
    (executeCommand (executeCommand initialSystem "cd /home/user/documents").2 "cat todo.md").1 =
      "- [ ] Refactor backend\n- [ ] Fix CSS bugs\n- [x] Deploy to production" := by
  constructor
  · intro sys line h
    match hl : tokenize line with
    | [] => rw [hl] at h; simp at h
    | c :: rest =>
      rw [hl] at h
      simp only [List.head?] at h
      injection h with hc
      subst hc
      constructor
      · intro h1
        cases rest with
        | nil => simp [executeCommand, hl]
        | cons p rest' => simp at h1
      · intro p hp
        cases rest with
        | nil => simp at hp
        | cons q rest' =>
          simp only [List.get?] at hp
          injection hp with hq
          subst hq
          constructor
          · intro hn
            simp [executeCommand, hl, hn]
          · intro n hn
            constructor
            · intro hd
              simp [executeCommand, hl, hn, hd]
            · intro hf
              have hnd : ¬ (n.ntype = NodeType.directory) := by rw [hf]; decide
              simp [executeCommand, hl, hn, hnd]
  · rfl

/-- Witness for C5: missing operand and reading `/etc/passwd` on the
seed system. -/
theorem cat_semantics_witness :
    executeCommand initialSystem "cat" = ("cat: missing operand", initialSystem) ∧
    executeCommand initialSystem "cat /etc/passwd" =
      ("root:x:0:0:root:/root:/bin/bash\nuser:x:1000:1000:user,,,:/home/user:/bin/bash",
       initialSystem) :=
  ⟨(cat_semantics.1 initialSystem "cat" rfl).1 rfl,
   (((cat_semantics.1 initialSystem "cat /etc/passwd" rfl).2 "/etc/passwd" rfl).2
     passwdNode rfl).2 rfl⟩

/-- C6: the dispatcher is a total function (it returns a string and a
state for every input line by construction of this embedding — no
exception path exists); an empty or whitespace-only line returns the
empty string without dispatch, and an unrecognized first token returns
`<command>: command not found`. -/
theorem executeCommand_total (sys : MockSystem) (line : String) :
    (tokenize line = [] → executeCommand sys line = ("", sys)) ∧
    (∀ c, (tokenize line).head? = some c →
       c ∉ (["ls", "cd", "pwd", "cat", "echo", "whoami", "help"] : List String) →
       executeCommand sys line = (c ++ ": command not found", sys)) := by
  constructor
  · intro h
    simp [executeCommand, h]
  · intro c hc hmem
    simp only [List.mem_cons, List.mem_singleton, not_or] at hmem
    obtain ⟨h1, h2, h3, h4, h5, h6, h7, -⟩ := hmem
    match hl : tokenize line with
    | [] => rw [hl] at hc; simp at hc
    | c0 :: rest =>
      rw [hl] at hc
      simp only [List.head?] at hc
      injection hc with hc0
      subst hc0
      simp [executeCommand, hl, h1, h2, h3, h4, h5, h6, h7]

/-- Witness for C6: a whitespace-only line and an unknown command. -/
theorem executeCommand_total_witness :
    executeCommand initialSystem "   " = ("", initialSystem) ∧
    executeCommand initialSystem "frobnicate" =
      ("frobnicate: command not found", initialSystem) :=
  ⟨(executeCommand_total initialSystem "   ").1 rfl,
   (executeCommand_total initialSystem "frobnicate").2 "frobnicate" rfl (by decide)⟩

/-- C8: `executeCommand` never changes the tree (only `addFile`
mutates it after seeding), and the cursor changes only under a `cd`
that either has no argument or whose argument resolves to a
directory. -/
theorem executeCommand_frame (sys : MockSystem) (line : String) :
    (executeCommand sys line).2.root = sys.root ∧
    ((executeCommand sys line).2.currentPath ≠ sys.currentPath →
      (tokenize line).head? = some "cd" ∧
      ((tokenize line).get? 1 = none ∨
       ∃ p n, (tokenize line).get? 1 = some p ∧
         (resolvePath sys.root sys.currentPath p).node = some n ∧
         n.ntype = NodeType.directory)) := by
  match hl : tokenize line with
  | [] =>
    refine ⟨by simp [executeCommand, hl], fun hne => absurd (by simp [executeCommand, hl]) hne⟩
  | c :: rest =>
    by_cases h2 : c = "cd"
    · subst h2
      cases rest with
      | nil =>
        refine ⟨by simp [executeCommand, hl], fun _ => ⟨rfl, Or.inl rfl⟩⟩
      | cons q rest' =>
        cases hn : (resolvePath sys.root sys.currentPath q).node with
        | none =>
          refine ⟨by simp [executeCommand, hl, hn],
                  fun hne => absurd (by simp [executeCommand, hl, hn]) hne⟩
        | some n =>
          by_cases hd : n.ntype = NodeType.directory
          · refine ⟨by simp [executeCommand, hl, hn, hd],
                    fun _ => ⟨rfl, Or.inr ⟨q, n, rfl, hn, hd⟩⟩⟩
          · refine ⟨by simp [executeCommand, hl, hn, hd],
                    fun hne => absurd (by simp [executeCommand, hl, hn, hd]) hne⟩
    · have hs : (executeCommand sys line).2 = sys := by
        by_cases h1 : c = "ls"
        · subst h1
          cases rest with
          | nil =>
            cases ht : findNode sys.root sys.currentPath with
            | none => simp [executeCommand, hl, ht]
            | some t =>
              by_cases hf : t.ntype = NodeType.file
              · simp [executeCommand, hl, ht, hf]
              · cases hch : t.children with
                | none => simp [executeCommand, hl, ht, hf, hch]
                | some cs => simp [executeCommand, hl, ht, hf, hch]
          | cons q rest' =>
            cases ht : (resolvePath sys.root sys.currentPath q).node with
            | none => simp [executeCommand, hl, ht]
            | some t =>
              by_cases hf : t.ntype = NodeType.file
              · simp [executeCommand, hl, ht, hf]
              · cases hch : t.children with
                | none => simp [executeCommand, hl, ht, hf, hch]
                | some cs => simp [executeCommand, hl, ht, hf, hch]
        · by_cases h3 : c = "pwd"
          · subst h3; simp [executeCommand, hl]
          · by_cases h4 : c = "cat"
            · subst h4
              cases rest with
              | nil => simp [executeCommand, hl]
              | cons q rest' =>
                cases hn : (resolvePath sys.root sys.currentPath q).node with
                | none => simp [executeCommand, hl, hn]
                | some n =>
                  by_cases hd : n.ntype = NodeType.directory
                  · simp [executeCommand, hl, hn, hd]
                  · simp [executeCommand, hl, hn, hd]
            · by_cases h5 : c = "echo"
              · subst h5; simp [executeCommand, hl]
              · by_cases h6 : c = "whoami"
                · subst h6; simp [executeCommand, hl]
                · by_cases h7 : c = "help"
                  · subst h7; simp [executeCommand, hl]
                  · simp [executeCommand, hl, h1, h2, h3, h4, h5, h6, h7]
      refine ⟨by rw [hs], fun hne => absurd (by rw [hs]) hne⟩

/-- Witness for C8: `cd /etc` changes the cursor, and the frame
theorem pins the change to a successful `cd`. -/
theorem executeCommand_frame_witness :
    (executeCommand initialSystem "cd /etc").2.root = initialSystem.root ∧
    ((tokenize "cd /etc").head? = some "cd" ∧
     ((tokenize "cd /etc").get? 1 = none ∨
      ∃ p n, (tokenize "cd /etc").get? 1 = some p ∧
        (resolvePath initialSystem.root initialSystem.currentPath p).node = some n ∧
        n.ntype = NodeType.directory)) :=
  ⟨(executeCommand_frame initialSystem "cd /etc").1,
   (executeCommand_frame initialSystem "cd /etc").2 (by decide)⟩

/-- C10: `addFile`'s same-name overwrite never inspects the existing
child's kind: a same-named child that is itself a directory is
replaced in place by the file node (its whole subtree becoming
unreachable — the slot under the target path now resolves to the file
node) and `addFile` returns `true`. -/
theorem addFile_overwrite_ignores_kind (sys : MockSystem) (dirPath : String)
    (fileNode d c : FileSystemNode)
    (hres : (resolvePath sys.root sys.currentPath dirPath).node = some d)
    (hdir : d.ntype = NodeType.directory)
    (hfind : (d.children.getD []).find? (fun x => x.name == fileNode.name) = some c)
    (_hkind : c.ntype = NodeType.directory) :
    (addFile sys dirPath fileNode).1 = true ∧
    (∃ i c', (d.children.getD []).get? i = some c' ∧ c'.name = fileNode.name ∧
       insertChild (d.children.getD []) fileNode = (d.children.getD []).set i fileNode) ∧
    findNode (addFile sys dirPath fileNode).2.root
        ((resolvePath sys.root sys.currentPath dirPath).parts ++ [fileNode.name]) =
      some fileNode := by
  have hmem : ∃ x ∈ d.children.getD [], x.name = fileNode.name :=
    ⟨c, List.mem_of_find?_eq_some hfind, by simpa using List.find?_some hfind⟩
  have hwalk : findNode sys.root (resolvePath sys.root sys.currentPath dirPath).parts =
      some d := hres
  refine ⟨by simp [addFile, hres, hdir], ?_, ?_⟩
  · rcases insertChild_set (d.children.getD []) fileNode hmem with ⟨i, c', hget, hname, heq⟩
    exact ⟨i, c', hget, hname, heq⟩
  · have hnew : findNode (addFile sys dirPath fileNode).2.root
        (resolvePath sys.root sys.currentPath dirPath).parts =
        some (d.setChildren (some (insertChild (d.children.getD []) fileNode))) := by
      simp only [addFile, hres, hdir, eq_self_iff_true, if_true]
      exact findNode_updateAtPath _ (fun n => setChildren_name n _) _ _ _ hwalk
    rw [findNode_append_single]
    simp only [hnew, setChildren_children]
    exact find?_insertChild _ _

/-- Witness for C10: uploading a FILE named `documents` into
`/home/user` of the seed tree clobbers the `documents` DIRECTORY. -/
theorem addFile_overwrite_ignores_kind_witness :
    (addFile initialSystem "/home/user" docFile).1 = true ∧
    findNode (addFile initialSystem "/home/user" docFile).2.root
        ["home", "user", "documents"] = some docFile :=
  ⟨(addFile_overwrite_ignores_kind initialSystem "/home/user" docFile userNode documentsNode
      rfl rfl rfl rfl).1,
   (addFile_overwrite_ignores_kind initialSystem "/home/user" docFile userNode documentsNode
      rfl rfl rfl rfl).2.2⟩
